import Mathlib

/-!
# Verification of the CharacteristicAIProject memory engine

Shallow embedding of the repository's memory composition and retrieval
engine: the RAG long-term store (`src/src/memory/rag_system.py`), the
prompt builder (`src/src/character/prompt_builder.py`) and the chat bot
orchestrator (`src/src/bot/chatbot.py`).

Modelling conventions:
* Timestamps are naturals.  The source stamps records with
  `datetime.now().isoformat()`; under the single-writer assumption those
  ISO-8601 strings are produced by a monotone clock and compare
  lexicographically exactly like their instants, so a monotone `Nat`
  clock is a faithful order-preserving model.
* The external embedding model (`SentenceTransformer.encode`) is a
  parameter `embed : String → Except String (List ℚ)`; an `Except.error`
  models the provider raising (embedding or storage failure of the
  write, which the repository code never catches).
* The external LLM call is a parameter
  `gen : String → Except String String`; `Except.error` models the API
  call raising, which `_generate_response` catches.
* The ChromaDB collection is modelled as the list of records in
  insertion order.  `collection.query` returns up to `n` records
  matching the `where` filter ordered by ascending distance (documented
  ChromaDB behaviour, default squared-L2 metric); the order among
  equal-distance records is modelled as stable, i.e. insertion order.
* Python dict state (`conversation_history`) is modelled as a total
  function defaulting to `[]`; the source's `user_id not in dict` checks
  coincide with the `[]` default.
-/

/-- A conversation turn held in the short-term buffer
(`ConversationMessage` in `prompt_builder.py`). -/
structure ConversationMessage where
  role : String
  content : String
  timestamp : Nat
  deriving DecidableEq, Repr

/-- A record stored in the ChromaDB collection: document id, the
metadata written by `add_memory` (`user_id`, `role`, `timestamp`), the
document text and its embedding. -/
structure ChromaRecord where
  id : String
  user_id : String
  role : String
  timestamp : Nat
  content : String
  embedding : List ℚ
  deriving DecidableEq, Repr

/-- The `Memory` data class of `rag_system.py`: document text, the
metadata fields (`user_id`, `role`, `timestamp`) and the relevance
score. -/
structure Memory where
  content : String
  user_id : String
  role : String
  timestamp : Nat
  relevance : ℚ
  deriving DecidableEq, Repr

/-- Squared-L2 distance between two embedding vectors (ChromaDB's
default `l2` metric). -/
def sqDist (a b : List ℚ) : ℚ :=
  (List.zipWith (fun x y => (x - y) * (x - y)) a b).sum

/-- Stable insertion of `x` into `l`: `x` goes after every `y` with
`le y x`, so among `le`-ties the earlier element stays first. -/
def insertStable (le : α → α → Bool) (x : α) : List α → List α
  | [] => [x]
  | y :: ys => if le y x then y :: insertStable le x ys else x :: y :: ys

/-- Stable sort with respect to the boolean preorder `le`: the unique
stable sort, modelling both ChromaDB's distance ordering and Python's
stable `list.sort`. -/
def sortStable (le : α → α → Bool) (l : List α) : List α :=
  l.foldl (fun acc x => insertStable le x acc) []

/-- Model of `collection.query(query_embeddings=[qemb], n_results=n,
where=\x7b"user_id": u\x7d)`: the records of user `u` paired with their
distance to the query embedding, ordered by ascending distance (stable),
truncated to `n` results. -/
def chromaQuery (store : List ChromaRecord) (qemb : List ℚ) (n : Nat) (u : String) :
    List (ChromaRecord × ℚ) :=
  let userRecords := store.filter (fun r => decide (r.user_id = u))
  let withDist := userRecords.map (fun r => (r, sqDist qemb r.embedding))
  (sortStable (fun a b => decide (a.2 ≤ b.2)) withDist).take n

/-- Model of `RAGMemorySystem.add_memory`: embed the message, build the metadata
and the document id `f"\x7buser_id\x7d_\x7brole\x7d_\x7btimestamp\x7d"`, and append the record
to the collection.  Returns the document id and the new collection; an
`Except.error` is the uncaught exception of the embedding/storage
provider. -/
def add_memory (embed : String → Except String (List ℚ)) (store : List ChromaRecord)
    (user_id message role : String) (ts : Nat) :
    Except String (String × List ChromaRecord) :=
  match embed message with
  | .error e => .error e
  | .ok emb =>
    let doc_id := user_id ++ "_" ++ role ++ "_" ++ toString ts
    .ok (doc_id, store ++ [⟨doc_id, user_id, role, ts, message, emb⟩])

/-- Model of `RAGMemorySystem.search_memories`: embed the query, query the
collection filtered to `user_id`, convert distance to relevance by
`relevance = 1 - distance`, keep only results with
`relevance >= min_relevance` and build `Memory` objects in the order
received. -/
def search_memories (embed : String → Except String (List ℚ)) (store : List ChromaRecord)
    (query user_id : String) (n_results : Nat) (min_relevance : ℚ) :
    Except String (List Memory) :=
  match embed query with
  | .error e => .error e
  | .ok query_embedding =>
    let rows := chromaQuery store query_embedding n_results user_id
    .ok ((rows.filter (fun rd => decide (min_relevance ≤ 1 - rd.2))).map
      (fun rd => ⟨rd.1.content, rd.1.user_id, rd.1.role, rd.1.timestamp, 1 - rd.2⟩))

/-- Model of `RAGMemorySystem.get_user_memory_count`: number of records whose
metadata matches `\x7b"user_id": user_id\x7d`. -/
def get_user_memory_count (store : List ChromaRecord) (user_id : String) : Nat :=
  (store.filter (fun r => decide (r.user_id = user_id))).length

/-- Model of `RAGMemorySystem.delete_user_memories`: collect the ids of the
user's records, delete those ids from the collection, and return the
number of collected ids. -/
def delete_user_memories (store : List ChromaRecord) (user_id : String) :
    List ChromaRecord × Nat :=
  let ids := (store.filter (fun r => decide (r.user_id = user_id))).map (fun r => r.id)
  (store.filter (fun r => decide (r.id ∉ ids)), ids.length)

/-- Model of `RAGMemorySystem.get_recent_memories`: fetch the user's records,
return `[]` when there are none, otherwise build `Memory` objects with
relevance fixed at `1.0`, sort by timestamp newest-first (Python's
stable `sort(key=..., reverse=True)`) and keep the first `n_results`. -/
def get_recent_memories (store : List ChromaRecord) (user_id : String) (n_results : Nat) :
    List Memory :=
  let results := store.filter (fun r => decide (r.user_id = user_id))
  if results.isEmpty then []
  else
    let memories := results.map
      (fun r => (⟨r.content, r.user_id, r.role, r.timestamp, 1⟩ : Memory))
    (sortStable (fun a b => decide (b.timestamp ≤ a.timestamp)) memories).take n_results

/-- Python's `int()` applied to a rational: truncation toward zero. -/
def pyInt (q : ℚ) : ℤ :=
  if 0 ≤ q then ⌊q⌋ else -⌊-q⌋

/-- Python's string repetition `s * n` (empty for `n ≤ 0`). -/
def strRepeat (s : String) (n : ℤ) : String :=
  String.join (List.replicate n.toNat s)

/-- The relevance quantization of `build_context_from_memories`:
`int(memory.relevance * 3)`, the number of `★` emitted. -/
def relevanceLevel (r : ℚ) : ℤ :=
  pyInt (r * 3)

/-- Model of `PromptBuilder._format_timestamp`: presentation-only
reformatting of the stored timestamp; none of the verified claims
depends on its exact output. -/
def format_timestamp (ts : Nat) : String :=
  toString ts

/-- Role label used by the prompt builder. -/
def roleName (role : String) : String :=
  if role = "user" then "ユーザー" else "あなた"

/-- The `context_parts` list assembled by
`PromptBuilder.build_context_from_memories` before the final
`"\n".join`: the long-term section (if any), the short-term section
(if any), the first-conversation sentinel when both are empty, then the
separator and the current-message line. -/
def buildContextParts (memories : List Memory)
    (short_term_history : List ConversationMessage) (current_message : String) :
    List String :=
  let longTerm : List String :=
    if memories.isEmpty then []
    else
      "## 関連する過去の記憶:" ::
        (memories.enum.map (fun p =>
          toString (p.1 + 1) ++ ". [" ++ format_timestamp p.2.timestamp ++ "] " ++
            strRepeat "★" (relevanceLevel p.2.relevance) ++ " " ++
            roleName p.2.role ++ ": " ++ p.2.content)) ++ [""]
  let shortTerm : List String :=
    if short_term_history.isEmpty then []
    else
      "## 現在の会話の流れ:" ::
        (short_term_history.map (fun msg => roleName msg.role ++ ": " ++ msg.content)) ++ [""]
  let sentinel : List String :=
    if memories.isEmpty ∧ short_term_history.isEmpty then ["（初めての会話です）", ""]
    else []
  longTerm ++ shortTerm ++ sentinel ++
    ["---", "現在のユーザーのメッセージ: " ++ current_message]

/-- Model of `PromptBuilder.build_context_from_memories`: the joined
context string. -/
def build_context_from_memories (memories : List Memory)
    (short_term_history : List ConversationMessage) (current_message : String) :
    String :=
  String.intercalate "\n" (buildContextParts memories short_term_history current_message)

/-- In-process state of a `ChatBot` paired with its `RAGMemorySystem`:
the per-user short-term history dict, the ChromaDB collection, and the
monotone wall clock producing timestamps. -/
structure BotState where
  conversation_history : String → List ConversationMessage
  store : List ChromaRecord
  clock : Nat

/-- Python's `l[-n:]` on a list, as used by `_get_short_term_history`:
for `n = 0` the slice `l[-0:]` is `l[0:]`, the whole list; otherwise the
last `n` elements. -/
def pySliceLast (l : List α) (n : Nat) : List α :=
  if n = 0 then l else l.drop (l.length - n)

/-- Model of `ChatBot._get_short_term_history`: the last
`short_term_memory_size` entries of the user's history (`[]` for an
unknown user). -/
def _get_short_term_history (short_term_memory_size : Nat) (s : BotState)
    (user_id : String) : List ConversationMessage :=
  pySliceLast (s.conversation_history user_id) short_term_memory_size

/-- Model of `ChatBot._generate_response`: call the provider; on an
exception, print and return the apologetic message built from the
error. -/
def _generate_response (gen : String → Except String String) (context : String) :
    String :=
  match gen context with
  | .ok r => r
  | .error e => "申し訳ありません、応答の生成中にエラーが発生しました: " ++ e

/-- Model of `ChatBot._save_to_memory`: append the turn to the user's
short-term history, then add it to the long-term store.  The short-term
append is a completed mutation before `add_memory` runs, so when the
long-term write raises (second component `some e`) the new state keeps
the appended turn but not the record. -/
def _save_to_memory (embed : String → Except String (List ℚ)) (s : BotState)
    (user_id message role : String) : BotState × Option String :=
  let ts := s.clock
  let s1 : BotState :=
    { s with
      conversation_history := fun v =>
        if v = user_id then s.conversation_history v ++ [⟨role, message, ts⟩]
        else s.conversation_history v
      clock := s.clock + 1 }
  match add_memory embed s1.store user_id message role ts with
  | .ok res => ({ s1 with store := res.2 }, none)
  | .error e => (s1, some e)

/-- Model of `ChatBot.chat`: retrieve long-term memories, read the
short-term window, compose the context, generate the response
(generation errors are swallowed into an apology by
`_generate_response`), then save the user turn and the assistant turn.
An `Except.error` result is an exception propagating to the caller; the
returned state keeps every mutation completed before the raise. -/
def chat (embed : String → Except String (List ℚ)) (gen : String → Except String String)
    (short_term_memory_size max_memory_results : Nat) (s : BotState)
    (user_id message : String) : BotState × Except String String :=
  match search_memories embed s.store message user_id max_memory_results 0 with
  | .error e => (s, .error e)
  | .ok long_term_memories =>
    let short_term_history := _get_short_term_history short_term_memory_size s user_id
    let context := build_context_from_memories long_term_memories short_term_history message
    let response := _generate_response gen context
    match _save_to_memory embed s user_id message "user" with
    | (s1, some e) => (s1, .error e)
    | (s1, none) =>
      match _save_to_memory embed s1 user_id response "assistant" with
      | (s2, some e) => (s2, .error e)
      | (s2, none) => (s2, .ok response)

/-- Model of `ChatBot.clear_short_term_memory`: drop the user's entry
from the short-term dict. -/
def clear_short_term_memory (s : BotState) (user_id : String) : BotState :=
  { s with conversation_history := fun v =>
      if v = user_id then [] else s.conversation_history v }

/-- The statistics dict returned by `ChatBot.get_user_stats`. -/
structure UserStats where
  user_id : String
  long_term_memories : Nat
  short_term_messages : Nat
  deriving DecidableEq, Repr

/-- Model of `ChatBot.get_user_stats`: the long-term record count and
the length of the full internal short-term history
(`len(self.conversation_history.get(user_id, []))`). -/
def get_user_stats (s : BotState) (user_id : String) : UserStats :=
  ⟨user_id, get_user_memory_count s.store user_id, (s.conversation_history user_id).length⟩

/-- The result dict returned by `ChatBot.delete_user_data`: these are
its only fields. -/
structure DeleteResult where
  user_id : String
  deleted_memories : Nat
  status : String
  deriving DecidableEq, Repr

/-- Model of `ChatBot.delete_user_data`: drop the user's short-term
entry, delete the user's long-term records, and return the result dict
carrying only the long-term deletion count. -/
def delete_user_data (s : BotState) (user_id : String) : BotState × DeleteResult :=
  let s1 : BotState :=
    { s with conversation_history := fun v =>
        if v = user_id then [] else s.conversation_history v }
  let deleted := delete_user_memories s1.store user_id
  ({ s1 with store := deleted.1 }, ⟨user_id, deleted.2, "completed"⟩)

/-- Membership in a stable insertion. -/
theorem mem_insertStable (le : α → α → Bool) (x : α) (l : List α) (a : α) :
    a ∈ insertStable le x l ↔ a = x ∨ a ∈ l := by
  induction l with
  | nil => simp [insertStable]
  | cons y ys ih =>
    simp only [insertStable]
    split
    · simp only [List.mem_cons, ih]
      tauto
    · simp only [List.mem_cons]

/-- Membership through the sorting fold. -/
theorem mem_foldl_insertStable (le : α → α → Bool) (l acc : List α) (a : α) :
    a ∈ l.foldl (fun acc x => insertStable le x acc) acc ↔ a ∈ acc ∨ a ∈ l := by
  induction l generalizing acc with
  | nil => simp
  | cons x xs ih =>
    simp only [List.foldl_cons, ih, mem_insertStable, List.mem_cons]
    tauto

/-- A stable sort permutes membership. -/
theorem mem_sortStable (le : α → α → Bool) (l : List α) (a : α) :
    a ∈ sortStable le l ↔ a ∈ l := by
  simp [sortStable, mem_foldl_insertStable]

/-- Stable insertion preserves sortedness for a total transitive
boolean preorder. -/
theorem pairwise_insertStable (le : α → α → Bool)
    (htot : ∀ a b, le a b = true ∨ le b a = true)
    (htrans : ∀ a b c, le a b = true → le b c = true → le a c = true)
    (x : α) (l : List α) (h : l.Pairwise (fun a b => le a b = true)) :
    (insertStable le x l).Pairwise (fun a b => le a b = true) := by
  induction l with
  | nil => simp [insertStable]
  | cons y ys ih =>
    rcases List.pairwise_cons.1 h with ⟨hy, hys⟩
    simp only [insertStable]
    split
    · rename_i hle
      refine List.pairwise_cons.2 ⟨?_, ih hys⟩
      intro b hb
      rcases (mem_insertStable le x ys b).1 hb with rfl | hbys
      · exact hle
      · exact hy b hbys
    · rename_i hle
      have hxy : le x y = true := (htot x y).resolve_right hle
      refine List.pairwise_cons.2 ⟨?_, h⟩
      intro b hb
      rcases List.mem_cons.1 hb with rfl | hbys
      · exact hxy
      · exact htrans x y b hxy (hy b hbys)

/-- The sorting fold preserves sortedness of the accumulator. -/
theorem pairwise_foldl_insertStable (le : α → α → Bool)
    (htot : ∀ a b, le a b = true ∨ le b a = true)
    (htrans : ∀ a b c, le a b = true → le b c = true → le a c = true)
    (l acc : List α) (hacc : acc.Pairwise (fun a b => le a b = true)) :
    (l.foldl (fun acc x => insertStable le x acc) acc).Pairwise
      (fun a b => le a b = true) := by
  induction l generalizing acc with
  | nil => exact hacc
  | cons x xs ih =>
    exact ih _ (pairwise_insertStable le htot htrans x acc hacc)

/-- A stable sort is sorted. -/
theorem pairwise_sortStable (le : α → α → Bool)
    (htot : ∀ a b, le a b = true ∨ le b a = true)
    (htrans : ∀ a b c, le a b = true → le b c = true → le a c = true)
    (l : List α) :
    (sortStable le l).Pairwise (fun a b => le a b = true) :=
  pairwise_foldl_insertStable le htot htrans l [] List.Pairwise.nil

/-- Every row returned by the modelled ChromaDB query is a record of the
requested user, taken from the store, paired with its true distance. -/
theorem mem_chromaQuery {store : List ChromaRecord} {qemb : List ℚ} {n : Nat}
    {u : String} {x : ChromaRecord × ℚ} (hx : x ∈ chromaQuery store qemb n u) :
    x.1 ∈ store ∧ x.1.user_id = u ∧ x.2 = sqDist qemb x.1.embedding := by
  unfold chromaQuery at hx
  have hx1 := (List.take_sublist _ _).subset hx
  rw [mem_sortStable] at hx1
  rcases List.mem_map.1 hx1 with ⟨r, hr, rfl⟩
  rcases List.mem_filter.1 hr with ⟨hrs, hru⟩
  exact ⟨hrs, of_decide_eq_true hru, rfl⟩

/-- The modelled ChromaDB query is sorted by ascending distance. -/
theorem pairwise_chromaQuery (store : List ChromaRecord) (qemb : List ℚ) (n : Nat)
    (u : String) :
    (chromaQuery store qemb n u).Pairwise (fun a b => a.2 ≤ b.2) := by
  unfold chromaQuery
  have hpw := pairwise_sortStable (fun a b : ChromaRecord × ℚ => decide (a.2 ≤ b.2))
    (fun a b => by rcases le_total a.2 b.2 with h | h <;> simp [h])
    (fun a b c hab hbc =>
      decide_eq_true (le_trans (of_decide_eq_true hab) (of_decide_eq_true hbc)))
    ((store.filter (fun r => decide (r.user_id = u))).map
      (fun r => (r, sqDist qemb r.embedding)))
  exact (List.Pairwise.sublist (List.take_sublist _ _) hpw).imp
    (fun h => of_decide_eq_true h)

/-- The modelled ChromaDB query returns at most `n` rows. -/
theorem length_chromaQuery_le (store : List ChromaRecord) (qemb : List ℚ) (n : Nat)
    (u : String) : (chromaQuery store qemb n u).length ≤ n := by
  unfold chromaQuery
  exact List.length_take_le _ _

/-- Elimination form of a successful `search_memories` call: the result
is the relevance-filtered, `Memory`-projected ChromaDB query. -/
theorem search_memories_ok_elim {embed : String → Except String (List ℚ)}
    {store : List ChromaRecord} {q u : String} {n : Nat} {minr : ℚ} {mems : List Memory}
    (hs : search_memories embed store q u n minr = Except.ok mems) :
    ∃ qemb, embed q = Except.ok qemb ∧
      mems = ((chromaQuery store qemb n u).filter
          (fun rd => decide (minr ≤ 1 - rd.2))).map
          (fun rd => ⟨rd.1.content, rd.1.user_id, rd.1.role, rd.1.timestamp, 1 - rd.2⟩) := by
  cases hemb : embed q with
  | error e => simp [search_memories, hemb] at hs
  | ok qemb =>
    refine ⟨qemb, rfl, ?_⟩
    simp only [search_memories, hemb, Except.ok.injEq] at hs
    exact hs.symm

/-- Every memory returned by `get_recent_memories` belongs to the
requested user. -/
theorem mem_get_recent_memories {store : List ChromaRecord} {u : String} {n : Nat}
    {m : Memory} (hm : m ∈ get_recent_memories store u n) : m.user_id = u := by
  simp only [get_recent_memories] at hm
  split at hm
  · cases hm
  · have h1 := (List.take_sublist _ _).subset hm
    rw [mem_sortStable] at h1
    rcases List.mem_map.1 h1 with ⟨r, hr, rfl⟩
    exact of_decide_eq_true (List.mem_filter.1 hr).2

/-- After `delete_user_memories`, no record of the deleted user remains
in the collection. -/
theorem delete_user_memories_no_user {store : List ChromaRecord} {u : String}
    {r : ChromaRecord} (hr : r ∈ (delete_user_memories store u).1) :
    r.user_id ≠ u := by
  simp only [delete_user_memories] at hr
  rcases List.mem_filter.1 hr with ⟨hrs, hid⟩
  intro hu
  have hidmem : r.id ∈ (store.filter (fun x => decide (x.user_id = u))).map
      (fun x => x.id) :=
    List.mem_map.2 ⟨r, List.mem_filter.2 ⟨hrs, decide_eq_true hu⟩, rfl⟩
  exact of_decide_eq_true hid hidmem

/-- C2: for users `U1 ≠ U2`, every element returned by
`search_memories` and by `get_recent_memories` for `U1` has `user_id`
equal to `U1` and never `U2`, regardless of content similarity (the
embeddings, hence similarities, are universally quantified). -/
theorem claim_C2 (embed : String → Except String (List ℚ)) (store : List ChromaRecord)
    (q u1 u2 : String) (n : Nat) (minr : ℚ) (mems : List Memory)
    (hne : u1 ≠ u2)
    (hs : search_memories embed store q u1 n minr = Except.ok mems) :
    (∀ m ∈ mems, m.user_id = u1 ∧ m.user_id ≠ u2) ∧
    (∀ m ∈ get_recent_memories store u1 n, m.user_id = u1 ∧ m.user_id ≠ u2) := by
  constructor
  · intro m hm
    rcases search_memories_ok_elim hs with ⟨qemb, hq, rfl⟩
    rcases List.mem_map.1 hm with ⟨rd, hrd, rfl⟩
    have hrd' := List.mem_filter.1 hrd
    have := mem_chromaQuery hrd'.1
    exact ⟨this.2.1, this.2.1 ▸ hne⟩
  · intro m hm
    have := mem_get_recent_memories hm
    exact ⟨this, this ▸ hne⟩

/-- Witness for C2 at a concrete store holding one record for each of
two users. -/
theorem claim_C2_witness :
    (∀ m ∈ [(⟨"hi", "u1", "user", 0, 1⟩ : Memory)], m.user_id = "u1" ∧ m.user_id ≠ "u2") ∧
    (∀ m ∈ get_recent_memories
        [⟨"a", "u1", "user", 0, "hi", []⟩, ⟨"b", "u2", "user", 1, "yo", []⟩] "u1" 5,
      m.user_id = "u1" ∧ m.user_id ≠ "u2") := by
  exact claim_C2 (fun _ => Except.ok [])
    [⟨"a", "u1", "user", 0, "hi", []⟩, ⟨"b", "u2", "user", 1, "yo", []⟩]
    "q" "u1" "u2" 5 0 [⟨"hi", "u1", "user", 0, 1⟩]
    (by simp)
    (by simp [search_memories, chromaQuery, sortStable, insertStable, sqDist])

/-- C4 (amended): a successful `search_memories` call returns at most
`k` results, sorted by descending relevance, all of relevance at least
`min_relevance`; it returns the empty sequence (not an error) when the
user has no records or none clear the threshold.  Ties in relevance are
NOT re-sorted by timestamp: the source applies no tie-break of its own
and keeps the underlying store's order (see the counterexample). -/
theorem claim_C4 (embed : String → Except String (List ℚ)) (store : List ChromaRecord)
    (q u : String) (k : Nat) (minr : ℚ) (qemb : List ℚ) (mems : List Memory)
    (hq : embed q = Except.ok qemb)
    (hs : search_memories embed store q u k minr = Except.ok mems) :
    mems.length ≤ k ∧
    mems.Pairwise (fun m1 m2 => m2.relevance ≤ m1.relevance) ∧
    (∀ m ∈ mems, minr ≤ m.relevance) ∧
    ((∀ r ∈ store, r.user_id ≠ u) → mems = []) ∧
    ((∀ r ∈ store, r.user_id = u → 1 - sqDist qemb r.embedding < minr) → mems = []) := by
  rcases search_memories_ok_elim hs with ⟨qemb', hq', hmems⟩
  rw [hq] at hq'
  injection hq' with hq''
  subst hq''
  subst hmems
  refine ⟨?_, ?_, ?_, ?_, ?_⟩
  · have h1 : ((chromaQuery store qemb k u).filter
        (fun rd => decide (minr ≤ 1 - rd.2))).length ≤ k :=
      le_trans (List.length_filter_le _ _) (length_chromaQuery_le store qemb k u)
    simpa [List.length_map] using h1
  · refine List.Pairwise.map _ ?_ ((pairwise_chromaQuery store qemb k u).filter _)
    intro a b hab
    simpa using sub_le_sub_left hab 1
  · intro m hm
    rcases List.mem_map.1 hm with ⟨rd, hrd, rfl⟩
    exact of_decide_eq_true (List.mem_filter.1 hrd).2
  · intro hnone
    have hq0 : chromaQuery store qemb k u = [] := by
      unfold chromaQuery
      have : store.filter (fun r => decide (r.user_id = u)) = [] :=
        List.filter_eq_nil_iff.2 (fun r hr => by
          simpa using hnone r hr)
      simp [this, sortStable]
    simp [hq0]
  · intro hbelow
    have hfil : (chromaQuery store qemb k u).filter
        (fun rd => decide (minr ≤ 1 - rd.2)) = [] := by
      refine List.filter_eq_nil_iff.2 (fun rd hrd => ?_)
      rcases mem_chromaQuery hrd with ⟨hrs, hru, hd⟩
      have := hbelow rd.1 hrs hru
      rw [← hd] at this
      simp [not_le.2 this]
    simp [hfil]

/-- Witness for C4 at a concrete one-record store. -/
theorem claim_C4_witness :
    ([(⟨"hi", "u1", "user", 0, 1⟩ : Memory)].length ≤ 5) ∧
    ([(⟨"hi", "u1", "user", 0, 1⟩ : Memory)].Pairwise
      (fun m1 m2 => m2.relevance ≤ m1.relevance)) ∧
    (∀ m ∈ [(⟨"hi", "u1", "user", 0, 1⟩ : Memory)], (0 : ℚ) ≤ m.relevance) ∧
    ((∀ r ∈ [(⟨"a", "u1", "user", 0, "hi", ([] : List ℚ)⟩ : ChromaRecord)],
        r.user_id ≠ "u1") → [(⟨"hi", "u1", "user", 0, 1⟩ : Memory)] = []) ∧
    ((∀ r ∈ [(⟨"a", "u1", "user", 0, "hi", ([] : List ℚ)⟩ : ChromaRecord)],
        r.user_id = "u1" → 1 - sqDist [] r.embedding < (0 : ℚ)) →
      [(⟨"hi", "u1", "user", 0, 1⟩ : Memory)] = []) := by
  exact claim_C4 (fun _ => Except.ok []) [⟨"a", "u1", "user", 0, "hi", []⟩]
    "q" "u1" 5 0 [] [⟨"hi", "u1", "user", 0, 1⟩]
    rfl
    (by simp [search_memories, chromaQuery, sortStable, insertStable, sqDist])

/-- Counterexample to C4 as stated: two records of the same user with
identical embeddings (hence tied relevance), the older one inserted
first.  `search_memories` returns the OLDER record first (timestamps 0
then 1 in the result), not the more recent one: ties in relevance are
not broken by more-recent timestamp first. -/
theorem claim_C4_counterexample :
    search_memories (fun _ => Except.ok [])
      [⟨"a", "u", "user", 0, "old", []⟩, ⟨"b", "u", "user", 1, "new", []⟩]
      "q" "u" 5 0 =
      Except.ok [⟨"old", "u", "user", 0, 1⟩, ⟨"new", "u", "user", 1, 1⟩] := by
  simp [search_memories, chromaQuery, sortStable, insertStable, sqDist]

/-- C6: deleting a user's memories and then immediately counting them
yields 0; a subsequent search for that user returns the empty sequence;
and `delete_user_memories` returns the number of records removed (the
user's full record count before the deletion). -/
theorem claim_C6 (store : List ChromaRecord) (u : String)
    (embed : String → Except String (List ℚ)) (q : String) (k : Nat) (minr : ℚ)
    (qemb : List ℚ) (hq : embed q = Except.ok qemb) :
    get_user_memory_count (delete_user_memories store u).1 u = 0 ∧
    (delete_user_memories store u).2 = get_user_memory_count store u ∧
    search_memories embed (delete_user_memories store u).1 q u k minr =
      Except.ok [] := by
  have hfil : (delete_user_memories store u).1.filter
      (fun r => decide (r.user_id = u)) = [] :=
    List.filter_eq_nil_iff.2 (fun r hr => by
      simpa using delete_user_memories_no_user hr)
  refine ⟨?_, ?_, ?_⟩
  · simp [get_user_memory_count, hfil]
  · simp [delete_user_memories, get_user_memory_count]
  · have hq0 : chromaQuery (delete_user_memories store u).1 qemb k u = [] := by
      unfold chromaQuery
      simp [hfil, sortStable]
    simp [search_memories, hq, hq0]

/-- Witness for C6 at a concrete two-user store. -/
theorem claim_C6_witness :
    get_user_memory_count
      (delete_user_memories
        [⟨"a", "u1", "user", 0, "hi", []⟩, ⟨"b", "u2", "user", 1, "yo", []⟩] "u1").1
      "u1" = 0 ∧
    (delete_user_memories
      [⟨"a", "u1", "user", 0, "hi", []⟩, ⟨"b", "u2", "user", 1, "yo", []⟩] "u1").2 =
      get_user_memory_count
        [⟨"a", "u1", "user", 0, "hi", []⟩, ⟨"b", "u2", "user", 1, "yo", []⟩] "u1" ∧
    search_memories (fun _ => Except.ok [])
      (delete_user_memories
        [⟨"a", "u1", "user", 0, "hi", []⟩, ⟨"b", "u2", "user", 1, "yo", []⟩] "u1").1
      "q" "u1" 5 0 = Except.ok [] := by
  exact claim_C6
    [⟨"a", "u1", "user", 0, "hi", []⟩, ⟨"b", "u2", "user", 1, "yo", []⟩] "u1"
    (fun _ => Except.ok []) "q" 5 0 [] rfl

/-- The fold inside `String.intercalate` applied to a list ending in
`[a, b]` produces a string ending in `a ++ "\n" ++ b`. -/
theorem intercalate_go_ends_pair (a b : String) :
    ∀ (l : List String) (acc : String),
      ∃ r, String.intercalate.go acc "\n" (l ++ [a, b]) = r ++ (a ++ "\n" ++ b) := by
  intro l
  induction l with
  | nil =>
    intro acc
    exact ⟨acc ++ "\n", by simp [String.intercalate.go, String.append_assoc]⟩
  | cons h t ih =>
    intro acc
    simpa [String.intercalate.go] using ih (acc ++ "\n" ++ h)

/-- Joining a part list that ends in `[a, b]` with newlines yields a
string ending in `a ++ "\n" ++ b`. -/
theorem intercalate_ends_pair (l : List String) (a b : String) :
    ∃ r, String.intercalate "\n" (l ++ [a, b]) = r ++ (a ++ "\n" ++ b) := by
  cases l with
  | nil =>
    refine ⟨"", ?_⟩
    have h : String.intercalate "\n" ([] ++ [a, b]) = a ++ "\n" ++ b := by
      simp [String.intercalate, String.intercalate.go]
    rw [h]
    apply String.ext
    simp
  | cons h t =>
    simpa [String.intercalate] using intercalate_go_ends_pair a b t h

/-- The current-message line is never the first-conversation sentinel:
its fixed prefix is already longer than the sentinel. -/
theorem msg_line_ne_sentinel (msg : String) :
    "現在のユーザーのメッセージ: " ++ msg ≠ "（初めての会話です）" := by
  intro h
  have hlen := congrArg String.length h
  rw [String.length_append] at hlen
  have h1 : ("現在のユーザーのメッセージ: " : String).length = 15 := rfl
  have h2 : ("（初めての会話です）" : String).length = 10 := rfl
  omega

/-- C7: when both the retrieved list and the short-term history are
empty, the composed part list contains exactly one no-prior-context
sentinel line; and for every input the composed context ends with the
separator line followed by the literal current message, hence ends with
the current message text. -/
theorem claim_C7 (mems : List Memory) (short : List ConversationMessage) (msg : String) :
    ((mems = [] ∧ short = []) →
      (buildContextParts mems short msg).count "（初めての会話です）" = 1) ∧
    (∃ r, build_context_from_memories mems short msg =
      r ++ ("---" ++ "\n" ++ ("現在のユーザーのメッセージ: " ++ msg))) ∧
    (∃ r, build_context_from_memories mems short msg = r ++ msg) := by
  have hpair : ∃ r, build_context_from_memories mems short msg =
      r ++ ("---" ++ "\n" ++ ("現在のユーザーのメッセージ: " ++ msg)) := by
    unfold build_context_from_memories
    exact intercalate_ends_pair _ "---" ("現在のユーザーのメッセージ: " ++ msg)
  refine ⟨?_, hpair, ?_⟩
  · rintro ⟨rfl, rfl⟩
    have hne := msg_line_ne_sentinel msg
    simp [buildContextParts, List.count_cons, hne]
  · rcases hpair with ⟨r, hr⟩
    refine ⟨r ++ ("---" ++ "\n" ++ "現在のユーザーのメッセージ: "), ?_⟩
    rw [hr]
    simp only [String.append_assoc]

/-- Witness for C7 on the empty-context, concrete-message instance. -/
theorem claim_C7_witness :
    (buildContextParts [] [] "hello").count "（初めての会話です）" = 1 ∧
    (∃ r, build_context_from_memories [] [] "hello" =
      r ++ ("---" ++ "\n" ++ ("現在のユーザーのメッセージ: " ++ "hello"))) ∧
    (∃ r, build_context_from_memories [] [] "hello" = r ++ "hello") :=
  ⟨(claim_C7 [] [] "hello").1 ⟨rfl, rfl⟩,
   (claim_C7 [] [] "hello").2.1,
   (claim_C7 [] [] "hello").2.2⟩

/-- Length of the fold underlying `String.join`. -/
theorem length_foldl_append (l : List String) :
    ∀ acc : String,
      (l.foldl (fun r s => r ++ s) acc).length =
        acc.length + (l.map String.length).sum := by
  induction l with
  | nil => intro acc; simp
  | cons s t ih =>
    intro acc
    simp [ih, String.length_append, Nat.add_assoc]

/-- Length of Python string repetition. -/
theorem length_strRepeat (s : String) (n : ℤ) :
    (strRepeat s n).length = n.toNat * s.length := by
  unfold strRepeat String.join
  rw [length_foldl_append]
  simp [List.map_replicate, Nat.mul_comm]

/-- C8: the relevance-to-indicator quantization
`int(relevance * 3)` is monotonic on `[0, 1]`: a strictly higher
relevance never yields a lower indicator level, nor a shorter `★`
string. -/
theorem claim_C8 (r1 r2 : ℚ) (h0 : 0 ≤ r2) (hlt : r2 < r1) (h1 : r1 ≤ 1) :
    relevanceLevel r2 ≤ relevanceLevel r1 ∧
    (strRepeat "★" (relevanceLevel r2)).length ≤
      (strRepeat "★" (relevanceLevel r1)).length := by
  have h0' : (0 : ℚ) ≤ r2 * 3 := mul_nonneg h0 (by norm_num)
  have h1' : (0 : ℚ) ≤ r1 * 3 := mul_nonneg (le_of_lt (lt_of_le_of_lt h0 hlt)) (by norm_num)
  have hle : r2 * 3 ≤ r1 * 3 := mul_le_mul_of_nonneg_right (le_of_lt hlt) (by norm_num)
  have hfloor : ⌊r2 * 3⌋ ≤ ⌊r1 * 3⌋ := Int.floor_le_floor hle
  have hlevel : relevanceLevel r2 ≤ relevanceLevel r1 := by
    simpa [relevanceLevel, pyInt, h0', h1'] using hfloor
  refine ⟨hlevel, ?_⟩
  rw [length_strRepeat, length_strRepeat]
  exact Nat.mul_le_mul_right _ (Int.toNat_le_toNat hlevel)

/-- Witness for C8 at relevances 1 and 1/2. -/
theorem claim_C8_witness :
    relevanceLevel (1 / 2) ≤ relevanceLevel 1 ∧
    (strRepeat "★" (relevanceLevel (1 / 2))).length ≤
      (strRepeat "★" (relevanceLevel 1)).length :=
  claim_C8 1 (1 / 2) (by norm_num) (by norm_num) (by norm_num)

/-- Python slicing `l[-n:]` keeps the last `min n (length l)` elements
when `n ≥ 1`. -/
theorem pySliceLast_pos {n : Nat} (hn : 1 ≤ n) (l : List α) :
    pySliceLast l n = l.drop (l.length - n) := by
  unfold pySliceLast
  exact if_neg (by omega)

/-- A `_save_to_memory` call always appends exactly the new turn to the
caller's short-term history, whether or not the long-term write
succeeds. -/
theorem _save_to_memory_history (embed : String → Except String (List ℚ)) (s : BotState)
    (u msg role : String) :
    (_save_to_memory embed s u msg role).1.conversation_history =
      fun v => if v = u then s.conversation_history v ++ [⟨role, msg, s.clock⟩]
               else s.conversation_history v := by
  unfold _save_to_memory
  cases h : add_memory embed s.store u msg role s.clock with
  | ok res => simp [h]
  | error e => simp [h]

/-- A `_save_to_memory` call whose embedding succeeds: the turn is
appended to the short-term history and the record to the store, and no
exception is raised. -/
theorem _save_to_memory_ok_eq {embed : String → Except String (List ℚ)} {s : BotState}
    {u msg role : String} {emb : List ℚ} (h : embed msg = Except.ok emb) :
    _save_to_memory embed s u msg role =
      (⟨fun v => if v = u then s.conversation_history v ++ [⟨role, msg, s.clock⟩]
                 else s.conversation_history v,
        s.store ++ [⟨u ++ "_" ++ role ++ "_" ++ toString s.clock, u, role, s.clock, msg, emb⟩],
        s.clock + 1⟩, none) := by
  unfold _save_to_memory add_memory
  simp [h]

/-- A `_save_to_memory` call whose long-term write raises: the turn is
still appended to the short-term history, the store is unchanged, and
the exception propagates. -/
theorem _save_to_memory_error_eq {embed : String → Except String (List ℚ)} {s : BotState}
    {u msg role : String} {e : String} (h : embed msg = Except.error e) :
    _save_to_memory embed s u msg role =
      (⟨fun v => if v = u then s.conversation_history v ++ [⟨role, msg, s.clock⟩]
                 else s.conversation_history v,
        s.store, s.clock + 1⟩, some e) := by
  unfold _save_to_memory add_memory
  simp [h]

/-- C5 (amended to `W ≥ 1`): the visible short-term window holds the
last `min W n` of the `n` turns appended so far, in chronological order
(it is a suffix of the internal history, which each `_save_to_memory`
extends by exactly one turn), and once the history holds exactly `W`
turns, appending one more evicts exactly the oldest turn from the
visible window.  For `W = 0` the claim fails: see the counterexample. -/
theorem claim_C5 (W : Nat) (hW : 1 ≤ W) (embed : String → Except String (List ℚ))
    (s : BotState) (u msg role : String) :
    (_get_short_term_history W s u).length = min W (s.conversation_history u).length ∧
    List.IsSuffix (_get_short_term_history W s u) (s.conversation_history u) ∧
    ((_save_to_memory embed s u msg role).1.conversation_history u =
      s.conversation_history u ++ [⟨role, msg, s.clock⟩]) ∧
    ((s.conversation_history u).length = W →
      _get_short_term_history W ((_save_to_memory embed s u msg role).1) u =
        (s.conversation_history u).drop 1 ++ [⟨role, msg, s.clock⟩]) := by
  have happ : (_save_to_memory embed s u msg role).1.conversation_history u =
      s.conversation_history u ++ [⟨role, msg, s.clock⟩] := by
    rw [_save_to_memory_history]
    simp
  refine ⟨?_, ?_, happ, ?_⟩
  · unfold _get_short_term_history
    rw [pySliceLast_pos hW]
    simp
    omega
  · unfold _get_short_term_history
    rw [pySliceLast_pos hW]
    exact List.drop_suffix _ _
  · intro hlen
    unfold _get_short_term_history
    rw [happ, pySliceLast_pos hW]
    have h1 : (s.conversation_history u ++ [(⟨role, msg, s.clock⟩ : ConversationMessage)]).length = W + 1 := by
      simp [hlen]
    rw [h1]
    have h2 : W + 1 - W = 1 := by omega
    rw [h2]
    exact List.drop_append_of_le_length (by omega)

/-- Witness for C5 at `W = 1` on a one-turn history. -/
theorem claim_C5_witness :
    ((_get_short_term_history 1
        ⟨fun _ => [⟨"user", "old", 0⟩], [], 7⟩ "u").length =
      min 1 ((⟨fun _ => [⟨"user", "old", 0⟩], [], 7⟩ : BotState).conversation_history "u").length) ∧
    List.IsSuffix
      (_get_short_term_history 1 ⟨fun _ => [⟨"user", "old", 0⟩], [], 7⟩ "u")
      ((⟨fun _ => [⟨"user", "old", 0⟩], [], 7⟩ : BotState).conversation_history "u") ∧
    ((_save_to_memory (fun _ => Except.ok [])
        ⟨fun _ => [⟨"user", "old", 0⟩], [], 7⟩ "u" "hi" "user").1.conversation_history "u" =
      (⟨fun _ => [⟨"user", "old", 0⟩], [], 7⟩ : BotState).conversation_history "u" ++
        [⟨"user", "hi", 7⟩]) ∧
    (((⟨fun _ => [⟨"user", "old", 0⟩], [], 7⟩ : BotState).conversation_history "u").length = 1 →
      _get_short_term_history 1
          ((_save_to_memory (fun _ => Except.ok [])
              ⟨fun _ => [⟨"user", "old", 0⟩], [], 7⟩ "u" "hi" "user").1) "u" =
        ((⟨fun _ => [⟨"user", "old", 0⟩], [], 7⟩ : BotState).conversation_history "u").drop 1 ++
          [⟨"user", "hi", 7⟩]) :=
  claim_C5 1 (by omega) (fun _ => Except.ok [])
    ⟨fun _ => [⟨"user", "old", 0⟩], [], 7⟩ "u" "hi" "user"

/-- Counterexample to C5 as stated, at `W = 0`: Python's `l[-0:]` is
the whole list, so with `short_term_memory_size = 0` the visible window
after a single append holds 1 > 0 entries — it is not capped at `W`. -/
theorem claim_C5_counterexample :
    (_get_short_term_history 0
        ((_save_to_memory (fun _ => Except.ok []) ⟨fun _ => [], [], 0⟩
            "u" "hi" "user").1) "u").length = 1 := by
  rfl

/-- C10: `get_user_stats` reports the length of the full internal
short-term history, which `_save_to_memory` grows by one on every
append and never evicts; so after more than `W` appends the reported
`short_term_messages` is strictly greater than `W` (the visible window
size). -/
theorem claim_C10 (s : BotState) (u : String) (W : Nat)
    (embed : String → Except String (List ℚ)) (msg role : String)
    (h : W < (s.conversation_history u).length) :
    (get_user_stats s u).short_term_messages = (s.conversation_history u).length ∧
    W < (get_user_stats s u).short_term_messages ∧
    ((_save_to_memory embed s u msg role).1.conversation_history u).length =
      (s.conversation_history u).length + 1 := by
  refine ⟨rfl, h, ?_⟩
  rw [_save_to_memory_history]
  simp

/-- Witness for C10: two appended turns, window size 1. -/
theorem claim_C10_witness :
    ((get_user_stats ⟨fun _ => [⟨"user", "a", 0⟩, ⟨"assistant", "b", 1⟩], [], 2⟩
        "u").short_term_messages =
      ((⟨fun _ => [⟨"user", "a", 0⟩, ⟨"assistant", "b", 1⟩], [], 2⟩ : BotState).conversation_history
          "u").length) ∧
    (1 < (get_user_stats ⟨fun _ => [⟨"user", "a", 0⟩, ⟨"assistant", "b", 1⟩], [], 2⟩
        "u").short_term_messages) ∧
    (((_save_to_memory (fun _ => Except.ok [])
          ⟨fun _ => [⟨"user", "a", 0⟩, ⟨"assistant", "b", 1⟩], [], 2⟩
          "u" "c" "user").1.conversation_history "u").length =
      ((⟨fun _ => [⟨"user", "a", 0⟩, ⟨"assistant", "b", 1⟩], [], 2⟩ : BotState).conversation_history
          "u").length + 1) :=
  claim_C10 ⟨fun _ => [⟨"user", "a", 0⟩, ⟨"assistant", "b", 1⟩], [], 2⟩ "u" 1
    (fun _ => Except.ok []) "c" "user" (by simp)

/-- C9 (amended): `delete_user_data` clears both the user's short-term
buffer and all of the user's long-term records, and its result reports
the long-term removal count (the user's record count before deletion).
The short-term removal count is NOT reported: see the counterexample. -/
theorem claim_C9 (s : BotState) (u : String) :
    (delete_user_data s u).1.conversation_history u = [] ∧
    get_user_memory_count (delete_user_data s u).1.store u = 0 ∧
    (delete_user_data s u).2.deleted_memories = get_user_memory_count s.store u := by
  refine ⟨?_, ?_, ?_⟩
  · simp [delete_user_data]
  · have hfil : ((delete_user_memories s.store u).1.filter
        (fun r => decide (r.user_id = u))) = [] :=
      List.filter_eq_nil_iff.2 (fun r hr => by
        simpa using delete_user_memories_no_user hr)
    simp [delete_user_data, get_user_memory_count, hfil]
  · simp [delete_user_data, delete_user_memories, get_user_memory_count]

/-- Counterexample to C9 as stated: two states with the same (empty)
long-term store but different short-term buffers for user `u` — one
empty, one holding 2 turns — produce identical `delete_user_data`
results.  The result therefore cannot report the number of short-term
turns removed (0 in the first run, 2 in the second): only the long-term
count is reported. -/
theorem claim_C9_counterexample :
    (delete_user_data ⟨fun _ => [], [], 0⟩ "u").2 =
      (delete_user_data
        ⟨fun v => if v = "u" then [⟨"user", "hi", 0⟩, ⟨"assistant", "yo", 1⟩] else [],
         [], 0⟩ "u").2 ∧
    ((⟨fun _ => [], [], 0⟩ : BotState).conversation_history "u").length = 0 ∧
    ((⟨fun v => if v = "u" then [⟨"user", "hi", 0⟩, ⟨"assistant", "yo", 1⟩] else [],
        [], 0⟩ : BotState).conversation_history "u").length = 2 := by
  refine ⟨rfl, rfl, rfl⟩

/-- C1 (amended): when the external generation call raises during
`chat` with a total (never-failing) embedding/storage provider, `chat`
does NOT skip persistence: it returns the apologetic message built from
the error, appends both the user turn and the apology turn to the
short-term history, and adds two records to the long-term store. -/
theorem claim_C1 (embedOk : String → List ℚ) (gen : String → Except String String)
    (W k : Nat) (s : BotState) (u msg e : String)
    (hgen : ∀ c, gen c = Except.error e) :
    (chat (fun t => Except.ok (embedOk t)) gen W k s u msg).2 =
      Except.ok ("申し訳ありません、応答の生成中にエラーが発生しました: " ++ e) ∧
    (chat (fun t => Except.ok (embedOk t)) gen W k s u msg).1.conversation_history u =
      s.conversation_history u ++
        [⟨"user", msg, s.clock⟩,
         ⟨"assistant", "申し訳ありません、応答の生成中にエラーが発生しました: " ++ e,
          s.clock + 1⟩] ∧
    (chat (fun t => Except.ok (embedOk t)) gen W k s u msg).1.store.length =
      s.store.length + 2 := by
  unfold chat
  simp only [search_memories]
  simp only [_generate_response, hgen]
  rw [_save_to_memory_ok_eq (show (fun t => Except.ok (embedOk t)) msg =
    Except.ok (embedOk msg) from rfl)]
  dsimp only
  rw [_save_to_memory_ok_eq
    (show (fun t => Except.ok (embedOk t)) ("申し訳ありません、応答の生成中にエラーが発生しました: " ++ e) =
      Except.ok (embedOk ("申し訳ありません、応答の生成中にエラーが発生しました: " ++ e)) from rfl)]
  simp [List.length_append]

/-- Witness for C1: a generator that always raises, on an empty state. -/
theorem claim_C1_witness :
    ((chat (fun t => Except.ok ((fun _ => []) t)) (fun _ => Except.error "boom") 5 5
        ⟨fun _ => [], [], 0⟩ "u" "hello").2 =
      Except.ok ("申し訳ありません、応答の生成中にエラーが発生しました: " ++ "boom")) ∧
    ((chat (fun t => Except.ok ((fun _ => []) t)) (fun _ => Except.error "boom") 5 5
        ⟨fun _ => [], [], 0⟩ "u" "hello").1.conversation_history "u" =
      (⟨fun _ => [], [], 0⟩ : BotState).conversation_history "u" ++
        [⟨"user", "hello", 0⟩,
         ⟨"assistant", "申し訳ありません、応答の生成中にエラーが発生しました: " ++ "boom", 0 + 1⟩]) ∧
    ((chat (fun t => Except.ok ((fun _ => []) t)) (fun _ => Except.error "boom") 5 5
        ⟨fun _ => [], [], 0⟩ "u" "hello").1.store.length =
      (⟨fun _ => [], [], 0⟩ : BotState).store.length + 2) :=
  claim_C1 (fun _ => []) (fun _ => Except.error "boom") 5 5
    ⟨fun _ => [], [], 0⟩ "u" "hello" "boom" (fun _ => rfl)

/-- Counterexample to C1 as stated: the generation call raises, yet the
turn IS recorded in both stores.  `_generate_response` catches the
provider exception and returns the apology string, so `chat` proceeds
to persist the user message and the apology: the short-term history
gains 2 turns, the long-term store gains 2 records, and the apology is
returned as the response. -/
theorem claim_C1_counterexample :
    ((chat (fun _ => Except.ok []) (fun _ => Except.error "boom") 5 5
        ⟨fun _ => [], [], 0⟩ "u" "hello").1.conversation_history "u").length = 2 ∧
    ((chat (fun _ => Except.ok []) (fun _ => Except.error "boom") 5 5
        ⟨fun _ => [], [], 0⟩ "u" "hello").1.store).length = 2 ∧
    (chat (fun _ => Except.ok []) (fun _ => Except.error "boom") 5 5
        ⟨fun _ => [], [], 0⟩ "u" "hello").2 =
      Except.ok ("申し訳ありません、応答の生成中にエラーが発生しました: " ++ "boom") := by
  refine ⟨rfl, rfl, rfl⟩

/-- C3 (amended): when generation succeeds but the long-term write of
the assistant's turn raises, `chat` propagates the exception — the
generated response is NOT returned to the caller.  The user's turn,
already persisted to the store, is not rolled back, and both turns are
kept in the short-term history (appended before the raise). -/
theorem claim_C3 (embed : String → Except String (List ℚ))
    (gen : String → Except String String) (W k : Nat) (s : BotState)
    (u msg resp e : String) (v1 : List ℚ)
    (hq : embed msg = Except.ok v1)
    (hgen : ∀ c, gen c = Except.ok resp)
    (hr : embed resp = Except.error e) :
    (chat embed gen W k s u msg).2 = Except.error e ∧
    (chat embed gen W k s u msg).1.store =
      s.store ++
        [⟨u ++ "_" ++ "user" ++ "_" ++ toString s.clock, u, "user", s.clock, msg, v1⟩] ∧
    (chat embed gen W k s u msg).1.conversation_history u =
      s.conversation_history u ++
        [⟨"user", msg, s.clock⟩, ⟨"assistant", resp, s.clock + 1⟩] := by
  unfold chat
  simp only [search_memories, hq]
  simp only [_generate_response, hgen]
  rw [_save_to_memory_ok_eq hq]
  dsimp only
  rw [_save_to_memory_error_eq hr]
  simp

/-- Witness for C3: storage fails exactly on the generated response. -/
theorem claim_C3_witness :
    ((chat (fun t => if t = "RESP" then Except.error "db down" else Except.ok [])
        (fun _ => Except.ok "RESP") 5 5 ⟨fun _ => [], [], 0⟩ "u" "hi").2 =
      Except.error "db down") ∧
    ((chat (fun t => if t = "RESP" then Except.error "db down" else Except.ok [])
        (fun _ => Except.ok "RESP") 5 5 ⟨fun _ => [], [], 0⟩ "u" "hi").1.store =
      (⟨fun _ => [], [], 0⟩ : BotState).store ++
        [⟨"u" ++ "_" ++ "user" ++ "_" ++ toString 0, "u", "user", 0, "hi", []⟩]) ∧
    ((chat (fun t => if t = "RESP" then Except.error "db down" else Except.ok [])
        (fun _ => Except.ok "RESP") 5 5
        ⟨fun _ => [], [], 0⟩ "u" "hi").1.conversation_history "u" =
      (⟨fun _ => [], [], 0⟩ : BotState).conversation_history "u" ++
        [⟨"user", "hi", 0⟩, ⟨"assistant", "RESP", 0 + 1⟩]) :=
  claim_C3 (fun t => if t = "RESP" then Except.error "db down" else Except.ok [])
    (fun _ => Except.ok "RESP") 5 5 ⟨fun _ => [], [], 0⟩ "u" "hi" "RESP" "db down" []
    (by simp) (fun _ => rfl) (by simp)

/-- Counterexample to C3 as stated: generation succeeds with "RESP",
the long-term write of the assistant's turn raises, and `chat` raises
instead of returning the generated response — the reply is not
best-effort with respect to long-term persistence.  (The user's turn
remains persisted: the store holds exactly the user record.) -/
theorem claim_C3_counterexample :
    (chat (fun t => if t = "RESP" then Except.error "db down" else Except.ok [])
        (fun _ => Except.ok "RESP") 5 5 ⟨fun _ => [], [], 0⟩ "u" "hi").2 =
      Except.error "db down" ∧
    ((chat (fun t => if t = "RESP" then Except.error "db down" else Except.ok [])
        (fun _ => Except.ok "RESP") 5 5
        ⟨fun _ => [], [], 0⟩ "u" "hi").1.store).map (fun r => r.content) = ["hi"] ∧
    ((chat (fun t => if t = "RESP" then Except.error "db down" else Except.ok [])
        (fun _ => Except.ok "RESP") 5 5
        ⟨fun _ => [], [], 0⟩ "u" "hi").1.conversation_history "u").length = 2 := by
  refine ⟨rfl, rfl, rfl⟩
